import Mathlib

/-!
Verification of the simulation core of a grid-based snake game
(`src/src/main.rs`).  The game state lives in Bevy ECS resources and
components; here the gameplay systems are shallowly embedded as pure
Lean functions over explicit state.  External collaborators (Bevy's
keyboard resource, the timers, the event queue, the `rand` crate) are
abstracted the way the spec describes them: the held keys become four
booleans, each timer becomes a boolean "did it fire this frame" input,
the random source becomes a rational in [0,1), and the per-frame growth
event batch becomes a natural-number count.
-/

namespace Snake

/-- Grid position component: `struct Position { x: i32, y: i32 }`.
`i32` overflow never matters for the claims (positions change by one
cell per tick), so coordinates are embedded as unbounded integers. -/
structure Position where
  x : Int
  y : Int
deriving DecidableEq, Repr

/-- `enum Direction { Left, Up, Right, Down }`. -/
inductive Direction where
  | Left
  | Up
  | Right
  | Down
deriving DecidableEq, Repr, Fintype

/-- `Direction::opposite`: `Left→Right, Right→Left, Up→Down, Down→Up`. -/
def Direction.opposite : Direction → Direction
  | .Left => .Right
  | .Right => .Left
  | .Up => .Down
  | .Down => .Up

/-- `const ARENA_WIDTH: u32 = 10`. -/
def ARENA_WIDTH : Nat := 10

/-- `const ARENA_HEIGHT: u32 = 10`. -/
def ARENA_HEIGHT : Nat := 10

/-- Which of the four arrow keys are currently held.  Modelled from the
spec's input-source interface (`is_pressed(movement_key) -> bool`); the
concrete `ButtonInput<KeyCode>` resource is Bevy library state, not
part of this repository. -/
structure HeldKeys where
  left : Bool
  down : Bool
  up : Bool
  right : Bool
deriving DecidableEq, Repr, Fintype

/-- The candidate direction resolved inside `snake_movement_input`: the
`if / else if` chain testing `ArrowLeft`, `ArrowDown`, `ArrowUp`,
`ArrowRight` in that order, falling back to the head's current
direction when no arrow key is held. -/
def resolveCandidate (k : HeldKeys) (cur : Direction) : Direction :=
  if k.left then .Left
  else if k.down then .Down
  else if k.up then .Up
  else if k.right then .Right
  else cur

/-- `snake_movement_input` as a function from the held keys and the
head's current direction to its new direction: the candidate is
adopted unless it equals `opposite(current)`. -/
def snake_movement_input (k : HeldKeys) (cur : Direction) : Direction :=
  let dir := resolveCandidate k cur
  if dir ≠ cur.opposite then dir else cur

/-- Head displacement in `snake_movement`:
`Left`: `x -= 1`; `Right`: `x += 1`; `Up`: `y += 1`; `Down`: `y -= 1`. -/
def moveHead (d : Direction) (p : Position) : Position :=
  match d with
  | .Left => { p with x := p.x - 1 }
  | .Right => { p with x := p.x + 1 }
  | .Up => { p with y := p.y + 1 }
  | .Down => { p with y := p.y - 1 }

/-- `snake_movement` on the ordered list of segment positions (head
first) once its timer has fired.  When the chain is empty there is no
head entity (the head is itself spawned as slot 0 of the chain), so
the `heads` query yields nothing and the system returns without
touching anything.  Otherwise it snapshots all segment positions in
chain order, moves the head by its direction, hands every trailing
segment its predecessor's snapshotted position (the `zip` with
`skip(1)`), and records the tail's pre-move position in
`LastTailPosition`.  Returns the new position chain and the new
`LastTailPosition` contents. -/
def snake_movement (d : Direction) (chain : List Position)
    (lastTail : Option Position) : List Position × Option Position :=
  match chain with
  | [] => ([], lastTail)
  | h :: t =>
      (moveHead d h :: (h :: t).dropLast,
       some ((h :: t).getLast (List.cons_ne_nil h t)))

/-- Iterated movement ticks with a constant direction and no growth. -/
def snake_movement_iter (d : Direction) (chain : List Position) :
    Nat → List Position
  | 0 => chain
  | T + 1 => (snake_movement d (snake_movement_iter d chain T) none).1

/-- The ECS state the gameplay systems touch.  `segments` is the
`SnakeSegments` resource: the entity ids in chain order, each paired
with its `Position` component (the head, which also carries the
`SnakeHead { direction }` component, is slot 0 by construction of
`spawn_snake`).  `foods` is the set of entities with the `Food`
component, with their positions.  `nextId` models Bevy's fresh-entity
allocation. -/
structure GameState where
  nextId : Nat
  segments : List (Nat × Position)
  headDir : Direction
  foods : List (Nat × Position)
  lastTail : Option Position
deriving DecidableEq, Repr

/-- `spawn_snake` plus the resource initialisation in `main`: the head
entity (id 0) at (3,3) facing `Up`, one body segment (id 1, via
`spawn_snake_segment`) at (3,2); `LastTailPosition::default()` holds
`None`; no food exists yet. -/
def initialState : GameState :=
  { nextId := 2
    segments := [(0, ⟨3, 3⟩), (1, ⟨3, 2⟩)]
    headDir := .Up
    foods := []
    lastTail := none }

/-- `snake_movement_input` as a system over the game state: when a head
entity exists (the chain is non-empty) its direction is updated. -/
def inputSystem (k : HeldKeys) (s : GameState) : GameState :=
  match s.segments with
  | [] => s
  | _ :: _ => { s with headDir := snake_movement_input k s.headDir }

/-- `snake_movement` as a system over the game state.  `ticked` is the
spec's abstract tick source: `timer.0.tick(time.delta()).just_finished()`.
The per-entity `Position` components of the chain are exactly the
snapshot list, so the system maps the position transform over the
chain while the entity ids stay in place. -/
def movementSystem (ticked : Bool) (s : GameState) : GameState :=
  if ticked then
    match s.segments with
    | [] => s
    | (e, p) :: rest =>
        let r := snake_movement s.headDir (p :: rest.map Prod.snd) s.lastTail
        { s with
          segments := (((e, p) :: rest).map Prod.fst).zip r.1
          lastTail := r.2 }
  else s

/-- `snake_eating`: the nested loop over every head position and every
food entity.  A food whose position equals some head's position is
despawned; one `GrowthEvent` is sent per matching (head, food) pair.
Returns the surviving foods and the number of events sent. -/
def snake_eating (heads : List Position) (foods : List (Nat × Position)) :
    List (Nat × Position) × Nat :=
  (foods.filter fun f => heads.all fun hp => decide (f.2 ≠ hp),
   (heads.map fun hp => foods.countP fun f => decide (f.2 = hp)).sum)

/-- `snake_eating` as a system over the game state: with a single head
(the chain's slot 0) the head-position query yields at most one
position. -/
def eatingSystem (s : GameState) : GameState × Nat :=
  let r := snake_eating ((s.segments.head?.map Prod.snd).toList) s.foods
  ({ s with foods := r.1 }, r.2)

/-- `snake_growth`.  `pending` is the size of this frame's batch of
`GrowthEvent`s.  Modelled from the spec: Bevy's `Events`/`EventReader`
machinery is library code outside this repository; per the spec the
batch is transient per frame and `growth_reader.read().next()`
consumes only the first signal, the remainder being dropped rather
than queued.  When a signal is consumed the code appends one segment
at `last_tail_position.0.unwrap()`; the result is `none` when that
unwrap panics (`LastTailPosition` is `None`). -/
def snake_growth (pending : Nat) (s : GameState) : Option GameState :=
  if 0 < pending then
    match s.lastTail with
    | none => none
    | some p =>
        some { s with
          segments := s.segments ++ [(s.nextId, p)]
          nextId := s.nextId + 1 }
  else some s

/-- Modelled from the spec: `random::<f32>()` from the `rand` crate is
the spec's random source `uniform_float() -> [0,1)`, embedded as a
rational; the `f32` multiplication and the truncating `as i32` cast of
a nonnegative value are the floor of the product. -/
def foodPosition (u v : ℚ) : Position :=
  ⟨⌊u * (ARENA_WIDTH : ℚ)⌋, ⌊v * (ARENA_HEIGHT : ℚ)⌋⟩

/-- `food_spawner`: on its own timer's tick, spawn one food entity at a
random arena cell. -/
def food_spawner (ticked : Bool) (u v : ℚ) (s : GameState) : GameState :=
  if ticked then
    { s with
      foods := s.foods ++ [(s.nextId, foodPosition u v)]
      nextId := s.nextId + 1 }
  else s

/-- The abstract inputs of one `Update` frame: held keys, whether each
of the two timers fired, and the two random draws the food spawner
would use. -/
structure FrameInput where
  keys : HeldKeys
  moveTick : Bool
  foodTick : Bool
  u : ℚ
  v : ℚ

/-- The number of `GrowthEvent`s sent during a frame: the output of the
eating pass after input resolution and movement. -/
def framePending (inp : FrameInput) (s : GameState) : Nat :=
  (eatingSystem (movementSystem inp.moveTick (inputSystem inp.keys s))).2

/-- One `Update` frame in the scheduled order
`(snake_movement_input, snake_movement, snake_eating, snake_growth).chain()`
followed by `food_spawner` (whose deferred spawn is visible from the
next frame regardless of its relative order).  `none` models the panic
in `snake_growth`. -/
def frameStep (inp : FrameInput) (s : GameState) : Option GameState :=
  let s2 := movementSystem inp.moveTick (inputSystem inp.keys s)
  let r := eatingSystem s2
  match snake_growth r.2 r.1 with
  | none => none
  | some s4 => some (food_spawner inp.foodTick inp.u inp.v s4)

/-- The game state after the input, movement, and eating passes of one
frame: the state `snake_growth` sees. -/
def midState (inp : FrameInput) (s : GameState) : GameState :=
  (eatingSystem (movementSystem inp.moveTick (inputSystem inp.keys s))).1

/-- The states reachable from startup by whole frames. -/
inductive Reachable : GameState → Prop where
  | init : Reachable initialState
  | step {s s' : GameState} (inp : FrameInput) :
      Reachable s → frameStep inp s = some s' → Reachable s'

/-- `ReachableFrom s s'`: `s'` arises from `s` by zero or more frames. -/
inductive ReachableFrom : GameState → GameState → Prop where
  | refl (s : GameState) : ReachableFrom s s
  | step {s t t' : GameState} (inp : FrameInput) :
      ReachableFrom s t → frameStep inp t = some t' → ReachableFrom s t'

theorem snake_movement_length (d : Direction) (chain : List Position)
    (lt : Option Position) :
    (snake_movement d chain lt).1.length = chain.length := by
  cases chain with
  | nil => rfl
  | cons h t => simp [snake_movement]

theorem snake_movement_iter_length (d : Direction) (chain : List Position)
    (T : Nat) : (snake_movement_iter d chain T).length = chain.length := by
  induction T with
  | zero => rfl
  | succ T ih => rw [snake_movement_iter, snake_movement_length, ih]

theorem snake_movement_trailing (d : Direction) (chain : List Position)
    (lt : Option Position) (i : Nat) (h1 : 1 ≤ i) (h2 : i < chain.length) :
    (snake_movement d chain lt).1[i]? = chain[i - 1]? := by
  cases chain with
  | nil => simp at h2
  | cons h t =>
      simp only [snake_movement]
      obtain ⟨j, rfl⟩ : ∃ j, i = j + 1 := ⟨i - 1, by omega⟩
      simp only [List.getElem?_cons_succ, Nat.add_sub_cancel]
      rw [List.dropLast_eq_take, List.getElem?_take_of_lt]
      simp only [List.length_cons] at h2
      simp only [List.length_cons]
      omega

theorem inputSystem_fields (k : HeldKeys) (s : GameState) :
    (inputSystem k s).segments = s.segments ∧
    (inputSystem k s).lastTail = s.lastTail ∧
    (inputSystem k s).nextId = s.nextId ∧
    (inputSystem k s).foods = s.foods := by
  rcases s with ⟨n, segs, d, f, lt⟩
  cases segs <;> exact ⟨rfl, rfl, rfl, rfl⟩

theorem movementSystem_false (s : GameState) : movementSystem false s = s := rfl

theorem movementSystem_empty (b : Bool) (s : GameState) (h : s.segments = []) :
    movementSystem b s = s := by
  rcases s with ⟨n, segs, d, f, lt⟩
  cases segs with
  | nil => cases b <;> rfl
  | cons hd rest => simp at h

theorem movementSystem_ids (b : Bool) (s : GameState) :
    (movementSystem b s).segments.map Prod.fst = s.segments.map Prod.fst := by
  cases b with
  | false => rfl
  | true =>
      rcases s with ⟨n, segs, d, f, lt⟩
      cases segs with
      | nil => rfl
      | cons hd rest =>
          rcases hd with ⟨e, p⟩
          simp only [movementSystem, if_true]
          rw [List.map_fst_zip]
          rw [snake_movement_length]
          simp

theorem movementSystem_fields (b : Bool) (s : GameState) :
    (movementSystem b s).nextId = s.nextId ∧
    (movementSystem b s).foods = s.foods ∧
    (movementSystem b s).headDir = s.headDir := by
  cases b with
  | false => exact ⟨rfl, rfl, rfl⟩
  | true =>
      rcases s with ⟨n, segs, d, f, lt⟩
      cases segs with
      | nil => exact ⟨rfl, rfl, rfl⟩
      | cons hd rest => rcases hd with ⟨e, p⟩; exact ⟨rfl, rfl, rfl⟩

theorem movementSystem_lastTail (b : Bool) (s : GameState) :
    (movementSystem b s).lastTail = s.lastTail ∨
      ∃ p, (movementSystem b s).lastTail = some p := by
  cases b with
  | false => exact Or.inl rfl
  | true =>
      rcases s with ⟨n, segs, d, f, lt⟩
      cases segs with
      | nil => exact Or.inl rfl
      | cons hd rest =>
          rcases hd with ⟨e, p⟩
          exact Or.inr ⟨_, rfl⟩

theorem movementSystem_lastTail_some (s : GameState) (h : s.segments ≠ []) :
    ∃ p, (movementSystem true s).lastTail = some p := by
  rcases s with ⟨n, segs, d, f, lt⟩
  cases segs with
  | nil => simp at h
  | cons hd rest =>
      rcases hd with ⟨e, p⟩
      exact ⟨_, rfl⟩

theorem movementSystem_lastTail_isSome (b : Bool) (s : GameState)
    (h : s.lastTail.isSome = true) :
    (movementSystem b s).lastTail.isSome = true := by
  rcases movementSystem_lastTail b s with heq | ⟨p, hp⟩
  · rw [heq]; exact h
  · rw [hp]; rfl

theorem eatingSystem_fields (s : GameState) :
    (eatingSystem s).1.segments = s.segments ∧
    (eatingSystem s).1.lastTail = s.lastTail ∧
    (eatingSystem s).1.nextId = s.nextId ∧
    (eatingSystem s).1.headDir = s.headDir :=
  ⟨rfl, rfl, rfl, rfl⟩

theorem food_spawner_fields (b : Bool) (u v : ℚ) (s : GameState) :
    (food_spawner b u v s).segments = s.segments ∧
    (food_spawner b u v s).lastTail = s.lastTail ∧
    (food_spawner b u v s).headDir = s.headDir := by
  cases b <;> exact ⟨rfl, rfl, rfl⟩

theorem snake_growth_zero (s : GameState) : snake_growth 0 s = some s := rfl

theorem snake_growth_pos_none (pending : Nat) (s : GameState)
    (hp : 0 < pending) (h : s.lastTail = none) :
    snake_growth pending s = none := by
  simp [snake_growth, hp, h]

theorem snake_growth_pos_some (pending : Nat) (s : GameState) (p : Position)
    (hp : 0 < pending) (h : s.lastTail = some p) :
    snake_growth pending s =
      some { s with
        segments := s.segments ++ [(s.nextId, p)]
        nextId := s.nextId + 1 } := by
  simp [snake_growth, hp, h]

theorem frameStep_eq (inp : FrameInput) (s : GameState) :
    frameStep inp s =
      match snake_growth (framePending inp s) (midState inp s) with
      | none => none
      | some s4 => some (food_spawner inp.foodTick inp.u inp.v s4) := rfl

theorem frameStep_eq_zero (inp : FrameInput) (s : GameState)
    (hp : framePending inp s = 0) :
    frameStep inp s =
      some (food_spawner inp.foodTick inp.u inp.v (midState inp s)) := by
  rw [frameStep_eq, hp, snake_growth_zero]

theorem frameStep_eq_growth (inp : FrameInput) (s : GameState) (p : Position)
    (hp : 0 < framePending inp s) (hlt : (midState inp s).lastTail = some p) :
    frameStep inp s =
      some (food_spawner inp.foodTick inp.u inp.v
        { midState inp s with
          segments := (midState inp s).segments ++ [((midState inp s).nextId, p)]
          nextId := (midState inp s).nextId + 1 }) := by
  rw [frameStep_eq, snake_growth_pos_some _ _ p hp hlt]

theorem frameStep_eq_none (inp : FrameInput) (s : GameState)
    (hp : 0 < framePending inp s) (hlt : (midState inp s).lastTail = none) :
    frameStep inp s = none := by
  rw [frameStep_eq, snake_growth_pos_none _ _ hp hlt]

theorem frameStep_decomp (inp : FrameInput) (s s' : GameState)
    (h : frameStep inp s = some s') :
    (framePending inp s = 0 ∧
      s' = food_spawner inp.foodTick inp.u inp.v (midState inp s)) ∨
    (0 < framePending inp s ∧ ∃ p, (midState inp s).lastTail = some p ∧
      s' = food_spawner inp.foodTick inp.u inp.v
        { midState inp s with
          segments := (midState inp s).segments ++ [((midState inp s).nextId, p)]
          nextId := (midState inp s).nextId + 1 }) := by
  rcases Nat.eq_zero_or_pos (framePending inp s) with hp | hp
  · left
    rw [frameStep_eq_zero inp s hp] at h
    exact ⟨hp, (Option.some.inj h).symm⟩
  · right
    cases hlt : (midState inp s).lastTail with
    | none => rw [frameStep_eq_none inp s hp hlt] at h; cases h
    | some p =>
        rw [frameStep_eq_growth inp s p hp hlt] at h
        exact ⟨hp, p, rfl, (Option.some.inj h).symm⟩

theorem midState_ids (inp : FrameInput) (s : GameState) :
    (midState inp s).segments.map Prod.fst = s.segments.map Prod.fst := by
  unfold midState
  rw [(eatingSystem_fields _).1, movementSystem_ids, (inputSystem_fields _ _).1]

theorem midState_length (inp : FrameInput) (s : GameState) :
    (midState inp s).segments.length = s.segments.length := by
  have h := congrArg List.length (midState_ids inp s)
  simpa using h

theorem midState_lastTail (inp : FrameInput) (s : GameState) :
    (midState inp s).lastTail =
      (movementSystem inp.moveTick (inputSystem inp.keys s)).lastTail :=
  (eatingSystem_fields _).2.1

theorem midState_lastTail_of_noTick (inp : FrameInput) (s : GameState)
    (h : inp.moveTick = false) : (midState inp s).lastTail = s.lastTail := by
  rw [midState_lastTail, h, movementSystem_false, (inputSystem_fields _ _).2.1]

theorem midState_lastTail_isSome (inp : FrameInput) (s : GameState)
    (h : s.lastTail.isSome = true) :
    (midState inp s).lastTail.isSome = true := by
  rw [midState_lastTail]
  apply movementSystem_lastTail_isSome
  rw [(inputSystem_fields _ _).2.1]
  exact h

theorem frameStep_lastTail (inp : FrameInput) (s s' : GameState)
    (h : frameStep inp s = some s') :
    s'.lastTail = (movementSystem inp.moveTick (inputSystem inp.keys s)).lastTail := by
  rcases frameStep_decomp inp s s' h with ⟨_, rfl⟩ | ⟨_, p, hlt, rfl⟩
  · rw [(food_spawner_fields _ _ _ _).2.1, midState_lastTail]
  · rw [(food_spawner_fields _ _ _ _).2.1]
    exact midState_lastTail inp s

theorem frameStep_lastTail_pres (inp : FrameInput) (s s' : GameState)
    (h : frameStep inp s = some s') (hs : s.lastTail.isSome = true) :
    s'.lastTail.isSome = true := by
  rw [frameStep_lastTail inp s s' h]
  apply movementSystem_lastTail_isSome
  rw [(inputSystem_fields _ _).2.1]
  exact hs

theorem reachableFrom_lastTail (s s' : GameState) (h : ReachableFrom s s')
    (hs : s.lastTail.isSome = true) : s'.lastTail.isSome = true := by
  induction h with
  | refl => exact hs
  | step inp hr hstep ih => exact frameStep_lastTail_pres _ _ _ hstep ih

theorem frameStep_isSome (inp : FrameInput) (s : GameState)
    (h : s.lastTail.isSome = true) : (frameStep inp s).isSome = true := by
  have hmid := midState_lastTail_isSome inp s h
  obtain ⟨p, hp⟩ := Option.isSome_iff_exists.mp hmid
  rcases Nat.eq_zero_or_pos (framePending inp s) with h0 | h0
  · rw [frameStep_eq_zero inp s h0]; rfl
  · rw [frameStep_eq_growth inp s p h0 hp]; rfl

theorem frameStep_length (inp : FrameInput) (s s' : GameState)
    (h : frameStep inp s = some s') :
    s'.segments.length = s.segments.length + min (framePending inp s) 1 := by
  rcases frameStep_decomp inp s s' h with ⟨h0, rfl⟩ | ⟨hp, p, hlt, rfl⟩
  · rw [(food_spawner_fields _ _ _ _).1, midState_length, h0]
    omega
  · rw [(food_spawner_fields _ _ _ _).1]
    have hmin : min (framePending inp s) 1 = 1 := by omega
    simp only [List.length_append, List.length_cons, List.length_nil,
      midState_length, hmin]

theorem frameStep_ids (inp : FrameInput) (s s' : GameState)
    (h : frameStep inp s = some s') :
    ∃ ext, s'.segments.map Prod.fst = s.segments.map Prod.fst ++ ext := by
  rcases frameStep_decomp inp s s' h with ⟨_, rfl⟩ | ⟨_, p, hlt, rfl⟩
  · refine ⟨[], ?_⟩
    rw [(food_spawner_fields _ _ _ _).1, midState_ids, List.append_nil]
  · refine ⟨[(midState inp s).nextId], ?_⟩
    rw [(food_spawner_fields _ _ _ _).1]
    show ((midState inp s).segments ++ [((midState inp s).nextId, p)]).map Prod.fst = _
    rw [List.map_append, midState_ids]
    rfl

theorem frameStep_take (inp : FrameInput) (s s' : GameState)
    (h : frameStep inp s = some s') :
    (s'.segments.map Prod.fst).take s.segments.length = s.segments.map Prod.fst := by
  obtain ⟨ext, hext⟩ := frameStep_ids inp s s' h
  rw [hext]
  have hlen : s.segments.length = (s.segments.map Prod.fst).length := by simp
  rw [hlen, List.take_left]

theorem head?_append_zero (l ext : List Nat) (h : l.head? = some 0) :
    (l ++ ext).head? = some 0 := by
  cases l with
  | nil => cases h
  | cons a t => simpa using h

theorem reachable_head (s : GameState) (h : Reachable s) :
    (s.segments.map Prod.fst).head? = some 0 := by
  induction h with
  | init => rfl
  | step inp hr hstep ih =>
      obtain ⟨ext, hext⟩ := frameStep_ids _ _ _ hstep
      rw [hext]
      exact head?_append_zero _ _ ih

theorem foodPosition_half : foodPosition (1 / 2) (1 / 2) = (⟨5, 5⟩ : Position) := by
  unfold foodPosition ARENA_WIDTH ARENA_HEIGHT
  norm_num

/-- Claim C9: `opposite` is a pure total function realising exactly the
pairing Left↔Right and Up↔Down; it is involutive and fixes no
direction. -/
theorem spec_C9 :
    Direction.opposite .Left = .Right ∧ Direction.opposite .Right = .Left ∧
    Direction.opposite .Up = .Down ∧ Direction.opposite .Down = .Up ∧
    (∀ d : Direction, d.opposite.opposite = d) ∧
    (∀ d : Direction, d.opposite ≠ d) := by
  refine ⟨rfl, rfl, rfl, rfl, ?_, ?_⟩ <;> decide

/-- Closed instance of C9 at `Up`. -/
theorem spec_C9_witness :
    Direction.opposite (Direction.opposite .Up) = .Up ∧
    Direction.opposite .Up ≠ .Up :=
  ⟨spec_C9.2.2.2.2.1 .Up, spec_C9.2.2.2.2.2 .Up⟩

/-- Claim C2: input resolution picks the candidate by priority
Left > Down > Up > Right (first held key wins, falling back to the
current direction when no key is held) and adopts it exactly when it
is not the opposite of the current direction; hence the resulting
direction is never the opposite of the previous one, for any held-key
combination — and therefore under any sequence of them. -/
theorem spec_C2 :
    (∀ (cur : Direction) (d u r : Bool),
      resolveCandidate ⟨true, d, u, r⟩ cur = .Left) ∧
    (∀ (cur : Direction) (u r : Bool),
      resolveCandidate ⟨false, true, u, r⟩ cur = .Down) ∧
    (∀ (cur : Direction) (r : Bool),
      resolveCandidate ⟨false, false, true, r⟩ cur = .Up) ∧
    (∀ cur : Direction,
      resolveCandidate ⟨false, false, false, true⟩ cur = .Right) ∧
    (∀ cur : Direction,
      resolveCandidate ⟨false, false, false, false⟩ cur = cur) ∧
    (∀ (k : HeldKeys) (cur : Direction),
      snake_movement_input k cur = resolveCandidate k cur ↔
        resolveCandidate k cur ≠ cur.opposite) ∧
    (∀ (k : HeldKeys) (cur : Direction),
      snake_movement_input k cur ≠ cur.opposite) := by
  refine ⟨?_, ?_, ?_, ?_, ?_, ?_, ?_⟩ <;> decide

/-- Closed instances of C2: Left wins over Down; a Left request while
heading Right is rejected against the pre-move direction. -/
theorem spec_C2_witness :
    resolveCandidate ⟨true, true, false, false⟩ .Up = .Left ∧
    (snake_movement_input ⟨true, false, false, false⟩ .Right =
        resolveCandidate ⟨true, false, false, false⟩ .Right ↔
      resolveCandidate ⟨true, false, false, false⟩ .Right ≠
        Direction.opposite .Right) ∧
    snake_movement_input ⟨true, false, false, false⟩ .Right ≠
      Direction.opposite .Right :=
  ⟨spec_C2.1 .Up true false false,
   spec_C2.2.2.2.2.2.1 ⟨true, false, false, false⟩ .Right,
   spec_C2.2.2.2.2.2.2 ⟨true, false, false, false⟩ .Right⟩

/-- Claim C1: on a movement tick with a non-empty chain the head moves
by exactly one cell according to its direction, every trailing segment
takes its predecessor's pre-tick position, `LastTailPosition` is set to
the tail's pre-tick position; iterating with a constant direction gives
the follow-the-leader property, and the concrete scenario from the spec
holds. -/
theorem spec_C1 (d : Direction) (h : Position) (t : List Position)
    (lt : Option Position) :
    (∀ p : Position,
      moveHead .Left p = ⟨p.x - 1, p.y⟩ ∧ moveHead .Right p = ⟨p.x + 1, p.y⟩ ∧
      moveHead .Up p = ⟨p.x, p.y + 1⟩ ∧ moveHead .Down p = ⟨p.x, p.y - 1⟩) ∧
    (snake_movement d (h :: t) lt).1.head? = some (moveHead d h) ∧
    (∀ i, 1 ≤ i → i < (h :: t).length →
      (snake_movement d (h :: t) lt).1[i]? = (h :: t)[i - 1]?) ∧
    (snake_movement d (h :: t) lt).2 =
      some ((h :: t).getLast (List.cons_ne_nil h t)) ∧
    (∀ T i, 1 ≤ T → 1 ≤ i → i < (h :: t).length →
      (snake_movement_iter d (h :: t) T)[i]? =
        (snake_movement_iter d (h :: t) (T - 1))[i - 1]?) ∧
    snake_movement .Up [⟨3, 3⟩, ⟨3, 2⟩] none = ([⟨3, 4⟩, ⟨3, 3⟩], some ⟨3, 2⟩) := by
  refine ⟨?_, rfl, ?_, rfl, ?_, by decide⟩
  · intro p
    exact ⟨rfl, rfl, rfl, rfl⟩
  · exact snake_movement_trailing d (h :: t) lt
  · intro T i hT hi hilen
    obtain ⟨S, rfl⟩ : ∃ S, T = S + 1 := ⟨T - 1, by omega⟩
    rw [snake_movement_iter, Nat.add_sub_cancel]
    apply snake_movement_trailing
    · exact hi
    · rw [snake_movement_iter_length]
      exact hilen

/-- Closed instance of C1 on the spec's scenario chain. -/
theorem spec_C1_witness :
    (snake_movement .Up [(⟨3, 3⟩ : Position), ⟨3, 2⟩] none).1[1]? = some ⟨3, 3⟩ ∧
    (snake_movement_iter .Up [(⟨3, 3⟩ : Position), ⟨3, 2⟩] 2)[1]? =
      (snake_movement_iter .Up [(⟨3, 3⟩ : Position), ⟨3, 2⟩] 1)[0]? := by
  have h := spec_C1 .Up ⟨3, 3⟩ [⟨3, 2⟩] none
  constructor
  · have h2 := h.2.2.1 1 (by decide) (by decide)
    simpa using h2
  · have h3 := h.2.2.2.2.1 2 1 (by decide) (by decide) (by decide)
    simpa using h3

/-- Claim C8: with zero segments a movement tick is a no-op — there is
no head entity, so the system changes no position, leaves
`LastTailPosition` unchanged and does not fail. -/
theorem spec_C8 :
    (∀ (d : Direction) (lt : Option Position),
      snake_movement d [] lt = ([], lt)) ∧
    (∀ (b : Bool) (s : GameState), s.segments = [] → movementSystem b s = s) :=
  ⟨fun _ _ => rfl, movementSystem_empty⟩

/-- Closed instance of C8 on an empty chain. -/
theorem spec_C8_witness :
    snake_movement .Up [] (some ⟨1, 1⟩) = ([], some ⟨1, 1⟩) ∧
    movementSystem true
        { nextId := 0, segments := [], headDir := .Up, foods := [],
          lastTail := none } =
      { nextId := 0, segments := [], headDir := .Up, foods := [],
        lastTail := none } :=
  ⟨spec_C8.1 .Up (some ⟨1, 1⟩), spec_C8.2 true _ rfl⟩

/-- Claim C3: a growth-consumption pass with at least one pending
signal consumes exactly one — the result does not depend on the batch
size, so the rest of the batch is dropped — and appends exactly one
segment at the tail, at the position stored in `LastTailPosition`; per
frame the chain grows by `min pending 1`, so two foods eaten in the
same tick grow the chain by one segment in total (concrete scenario in
the last conjunct). -/
theorem spec_C3 :
    (∀ (pending : Nat) (s : GameState) (p : Position), 0 < pending →
      s.lastTail = some p →
      ∃ s', snake_growth pending s = some s' ∧
        s'.segments.length = s.segments.length + 1 ∧
        s'.segments.getLast? = some (s.nextId, p) ∧
        s'.segments.take s.segments.length = s.segments) ∧
    (∀ (p₁ p₂ : Nat) (s : GameState), 0 < p₁ → 0 < p₂ →
      snake_growth p₁ s = snake_growth p₂ s) ∧
    (∀ (inp : FrameInput) (s s' : GameState), frameStep inp s = some s' →
      s'.segments.length = s.segments.length + min (framePending inp s) 1) ∧
    (framePending ⟨⟨false, false, false, false⟩, false, false, 0, 0⟩
        { nextId := 4, segments := [(0, ⟨5, 5⟩), (1, ⟨5, 4⟩)], headDir := .Up,
          foods := [(2, ⟨5, 5⟩), (3, ⟨5, 5⟩)], lastTail := some ⟨5, 3⟩ } = 2 ∧
      (frameStep ⟨⟨false, false, false, false⟩, false, false, 0, 0⟩
          { nextId := 4, segments := [(0, ⟨5, 5⟩), (1, ⟨5, 4⟩)], headDir := .Up,
            foods := [(2, ⟨5, 5⟩), (3, ⟨5, 5⟩)],
            lastTail := some ⟨5, 3⟩ }).map GameState.segments =
        some [(0, ⟨5, 5⟩), (1, ⟨5, 4⟩), (4, ⟨5, 3⟩)]) := by
  refine ⟨?_, ?_, ?_, by decide, by decide⟩
  · intro pending s p hp hlt
    refine ⟨_, snake_growth_pos_some pending s p hp hlt, ?_, ?_, ?_⟩
    · simp
    · exact List.getLast?_concat _
    · exact List.take_left _ _
  · intro p₁ p₂ s h1 h2
    cases hlt : s.lastTail with
    | none =>
        rw [snake_growth_pos_none p₁ s h1 hlt, snake_growth_pos_none p₂ s h2 hlt]
    | some p =>
        rw [snake_growth_pos_some p₁ s p h1 hlt,
          snake_growth_pos_some p₂ s p h2 hlt]
  · exact frameStep_length

/-- Closed instance of C3: a batch of two signals behaves like a batch
of one and appends a single segment at the recorded tail position. -/
theorem spec_C3_witness :
    snake_growth 1
        { nextId := 2, segments := [(0, ⟨3, 3⟩), (1, ⟨3, 2⟩)], headDir := .Up,
          foods := [], lastTail := some ⟨3, 2⟩ } =
      snake_growth 2
        { nextId := 2, segments := [(0, ⟨3, 3⟩), (1, ⟨3, 2⟩)], headDir := .Up,
          foods := [], lastTail := some ⟨3, 2⟩ } ∧
    ∃ s', snake_growth 2
        { nextId := 2, segments := [(0, ⟨3, 3⟩), (1, ⟨3, 2⟩)], headDir := .Up,
          foods := [], lastTail := some ⟨3, 2⟩ } = some s' ∧
      s'.segments.length = 3 ∧ s'.segments.getLast? = some (2, ⟨3, 2⟩) :=
  ⟨spec_C3.2.1 1 2 _ (by decide) (by decide),
   by
    obtain ⟨s', hs', hlen, hlast, _⟩ := spec_C3.1 2
      { nextId := 2, segments := [(0, ⟨3, 3⟩), (1, ⟨3, 2⟩)], headDir := .Up,
        foods := [], lastTail := some ⟨3, 2⟩ } ⟨3, 2⟩ (by decide) rfl
    exact ⟨s', hs', hlen, hlast⟩⟩

/-- Claim C4: the chain starts as exactly the two fixed segments (head
entity first, at (3,3) facing Up, body at (3,2)); in every reachable
state slot 0 still holds the head entity; a frame only ever appends to
the tail of the chain (the old id sequence is a prefix of the new one)
and the length grows by exactly one per consumed growth signal, hence
is monotonically non-decreasing. -/
theorem spec_C4 :
    (initialState.segments = [(0, ⟨3, 3⟩), (1, ⟨3, 2⟩)] ∧
     initialState.headDir = .Up ∧ initialState.lastTail = none) ∧
    (∀ s : GameState, Reachable s → (s.segments.map Prod.fst).head? = some 0) ∧
    (∀ (inp : FrameInput) (s s' : GameState), frameStep inp s = some s' →
      (s'.segments.map Prod.fst).take s.segments.length =
          s.segments.map Prod.fst ∧
      s.segments.length ≤ s'.segments.length ∧
      s'.segments.length = s.segments.length + min (framePending inp s) 1) := by
  refine ⟨⟨rfl, rfl, rfl⟩, reachable_head, ?_⟩
  intro inp s s' h
  have hlen := frameStep_length inp s s' h
  exact ⟨frameStep_take inp s s' h, by omega, hlen⟩

/-- Closed instance of C4: the startup state and its first moved
frame. -/
theorem spec_C4_witness :
    (initialState.segments.map Prod.fst).head? = some 0 ∧
    (({ nextId := 2, segments := [(0, ⟨3, 4⟩), (1, ⟨3, 3⟩)], headDir := .Up,
        foods := [], lastTail := some ⟨3, 2⟩ } : GameState).segments.map
          Prod.fst).take initialState.segments.length =
      initialState.segments.map Prod.fst :=
  ⟨spec_C4.2.1 initialState Reachable.init,
   (spec_C4.2.2 ⟨⟨false, false, false, false⟩, true, false, 0, 0⟩ initialState
      { nextId := 2, segments := [(0, ⟨3, 4⟩), (1, ⟨3, 3⟩)], headDir := .Up,
        foods := [], lastTail := some ⟨3, 2⟩ } (by decide)).1⟩

/-- Claim C5: consuming a growth signal while `LastTailPosition` is
unset hits the `unwrap` of a `None` and is fatal; a movement tick with
a non-empty chain records a `Some`, and from any state whose
`LastTailPosition` is set, every later frame — growth included —
succeeds, so the fatal branch is unreachable once a movement tick has
fired on a non-empty chain. -/
theorem spec_C5 :
    (∀ (pending : Nat) (s : GameState), 0 < pending → s.lastTail = none →
      snake_growth pending s = none) ∧
    (∀ s : GameState, s.segments ≠ [] →
      ∃ p, (movementSystem true s).lastTail = some p) ∧
    (∀ s s' : GameState, ReachableFrom s s' → s.lastTail.isSome = true →
      ∀ inp : FrameInput, (frameStep inp s').isSome = true) := by
  refine ⟨snake_growth_pos_none, movementSystem_lastTail_some, ?_⟩
  intro s s' hr hs inp
  exact frameStep_isSome inp s' (reachableFrom_lastTail s s' hr hs)

/-- Closed instance of C5: the fatal unwrap on the startup state, and
success once the tail position is recorded. -/
theorem spec_C5_witness :
    snake_growth 1 initialState = none ∧
    (∃ p, (movementSystem true initialState).lastTail = some p) ∧
    (frameStep ⟨⟨false, false, false, false⟩, false, false, 0, 0⟩
        { nextId := 2, segments := [(0, ⟨3, 3⟩), (1, ⟨3, 2⟩)], headDir := .Up,
          foods := [], lastTail := some ⟨3, 2⟩ }).isSome = true :=
  ⟨spec_C5.1 1 initialState (by decide) rfl,
   spec_C5.2.1 initialState (by decide),
   spec_C5.2.2
     { nextId := 2, segments := [(0, ⟨3, 3⟩), (1, ⟨3, 2⟩)], headDir := .Up,
       foods := [], lastTail := some ⟨3, 2⟩ } _ (ReachableFrom.refl _) rfl
     ⟨⟨false, false, false, false⟩, false, false, 0, 0⟩⟩

/-- Claim C6: a collision pass destroys exactly the food instances
standing on a head's cell (all of them, when several share the cell)
and sends one growth signal per matching (head, food) pair; food on
other cells survives and the pass leaves the segment chain, the head
direction and `LastTailPosition` untouched.  The last conjunct is the
spec's scenario: head and food at (5,5), the food is removed and after
growth the chain has 3 segments, the new one at the recorded tail
position. -/
theorem spec_C6 :
    (∀ (heads : List Position) (foods : List (Nat × Position))
        (f : Nat × Position), f ∈ foods → (∃ hp ∈ heads, f.2 = hp) →
      f ∉ (snake_eating heads foods).1) ∧
    (∀ (heads : List Position) (foods : List (Nat × Position))
        (f : Nat × Position), f ∈ foods → (∀ hp ∈ heads, f.2 ≠ hp) →
      f ∈ (snake_eating heads foods).1) ∧
    (∀ (heads : List Position) (foods : List (Nat × Position)),
      (snake_eating heads foods).2 =
        (heads.flatMap fun hp =>
          foods.filter fun f => decide (f.2 = hp)).length) ∧
    (∀ s : GameState, (eatingSystem s).1.segments = s.segments ∧
      (eatingSystem s).1.lastTail = s.lastTail ∧
      (eatingSystem s).1.headDir = s.headDir) ∧
    frameStep ⟨⟨false, false, false, false⟩, false, false, 0, 0⟩
        { nextId := 3, segments := [(0, ⟨5, 5⟩), (1, ⟨5, 4⟩)], headDir := .Up,
          foods := [(2, ⟨5, 5⟩)], lastTail := some ⟨5, 3⟩ } =
      some { nextId := 4, segments := [(0, ⟨5, 5⟩), (1, ⟨5, 4⟩), (3, ⟨5, 3⟩)],
             headDir := .Up, foods := [], lastTail := some ⟨5, 3⟩ } := by
  refine ⟨?_, ?_, ?_, fun s => ⟨rfl, rfl, rfl⟩, by decide⟩
  · rintro heads foods f hf ⟨hp, hhp, heq⟩ hmem
    simp only [snake_eating] at hmem
    have hall := (List.mem_filter.mp hmem).2
    rw [List.all_eq_true] at hall
    have hone := hall hp hhp
    rw [heq] at hone
    simp at hone
  · intro heads foods f hf hne
    simp only [snake_eating]
    refine List.mem_filter.mpr ⟨hf, ?_⟩
    rw [List.all_eq_true]
    intro hp hhp
    simpa using hne hp hhp
  · intro heads foods
    induction heads with
    | nil => rfl
    | cons hp hs ih =>
        simp only [snake_eating] at ih ⊢
        simp only [List.map_cons, List.sum_cons, List.flatMap_cons,
          List.length_append]
        rw [List.countP_eq_length_filter, ih]

/-- Closed instance of C6: a food on the head's cell is destroyed, a
food elsewhere survives. -/
theorem spec_C6_witness :
    (2, (⟨5, 5⟩ : Position)) ∉
      (snake_eating [⟨5, 5⟩] [(2, ⟨5, 5⟩), (7, ⟨1, 1⟩)]).1 ∧
    (7, (⟨1, 1⟩ : Position)) ∈
      (snake_eating [⟨5, 5⟩] [(2, ⟨5, 5⟩), (7, ⟨1, 1⟩)]).1 :=
  ⟨spec_C6.1 _ _ _ (by decide) ⟨⟨5, 5⟩, by decide, rfl⟩,
   spec_C6.2.1 _ _ _ (by decide) (by decide)⟩

/-- Claim C7: a food-spawner tick creates one food at
`(⌊u·ARENA_WIDTH⌋, ⌊v·ARENA_HEIGHT⌋)` for random `u, v ∈ [0,1)`, and
that position always lies inside `[0, ARENA_WIDTH) × [0, ARENA_HEIGHT)`. -/
theorem spec_C7 (u v : ℚ) (hu0 : 0 ≤ u) (hu1 : u < 1) (hv0 : 0 ≤ v)
    (hv1 : v < 1) :
    (0 ≤ (foodPosition u v).x ∧ (foodPosition u v).x < (ARENA_WIDTH : Int) ∧
     0 ≤ (foodPosition u v).y ∧ (foodPosition u v).y < (ARENA_HEIGHT : Int)) ∧
    ∀ s : GameState, (food_spawner true u v s).foods =
      s.foods ++ [(s.nextId, foodPosition u v)] := by
  constructor
  · refine ⟨Int.floor_nonneg.mpr (mul_nonneg hu0 (by norm_num)), ?_,
      Int.floor_nonneg.mpr (mul_nonneg hv0 (by norm_num)), ?_⟩
    · apply Int.floor_lt.mpr
      push_cast
      norm_num [ARENA_WIDTH]
      nlinarith
    · apply Int.floor_lt.mpr
      push_cast
      norm_num [ARENA_HEIGHT]
      nlinarith
  · intro s
    rfl

/-- Closed instance of C7 at `u = 1/2`, `v = 9/10`. -/
theorem spec_C7_witness :
    0 ≤ (foodPosition (1 / 2) (9 / 10)).x ∧
    (foodPosition (1 / 2) (9 / 10)).x < (ARENA_WIDTH : Int) ∧
    0 ≤ (foodPosition (1 / 2) (9 / 10)).y ∧
    (foodPosition (1 / 2) (9 / 10)).y < (ARENA_HEIGHT : Int) :=
  (spec_C7 (1 / 2) (9 / 10) (by norm_num) (by norm_num) (by norm_num)
    (by norm_num)).1

/-- Claim C10: only the movement pass writes `LastTailPosition`, and
when it does (timer fired, non-empty chain) it writes a `Some`; a set
`LastTailPosition` stays set across any number of frames; and two
growth signals consumed in different frames with no movement tick in
between append their new segments at the same cell. -/
theorem spec_C10 :
    (∀ (inp : FrameInput) (s s' : GameState), frameStep inp s = some s' →
      s'.lastTail = s.lastTail ∨
        (inp.moveTick = true ∧ s.segments ≠ [] ∧ ∃ p, s'.lastTail = some p)) ∧
    (∀ s s' : GameState, ReachableFrom s s' →
      s.lastTail.isSome = true → s'.lastTail.isSome = true) ∧
    (∀ (s : GameState) (inp₁ inp₂ : FrameInput) (s₁ s₂ : GameState),
      inp₁.moveTick = false → inp₂.moveTick = false →
      frameStep inp₁ s = some s₁ → frameStep inp₂ s₁ = some s₂ →
      0 < framePending inp₁ s → 0 < framePending inp₂ s₁ →
      ∃ p e₁ e₂, s.lastTail = some p ∧
        s₁.segments.getLast? = some (e₁, p) ∧
        s₂.segments.getLast? = some (e₂, p)) := by
  refine ⟨?_, reachableFrom_lastTail, ?_⟩
  · intro inp s s' h
    rw [frameStep_lastTail inp s s' h]
    cases hb : inp.moveTick with
    | false =>
        left
        rw [movementSystem_false, (inputSystem_fields _ _).2.1]
    | true =>
        cases hseg : s.segments with
        | nil =>
            left
            rw [movementSystem_empty true _
              (by rw [(inputSystem_fields _ _).1]; exact hseg),
              (inputSystem_fields _ _).2.1]
        | cons hd tl =>
            right
            refine ⟨rfl, by simp [hseg], ?_⟩
            apply movementSystem_lastTail_some
            rw [(inputSystem_fields _ _).1, hseg]
            simp
  · intro s inp₁ inp₂ s₁ s₂ hm1 hm2 h1 h2 hp1 hp2
    rcases frameStep_decomp inp₁ s s₁ h1 with ⟨h0, _⟩ | ⟨_, p, hlt1, hs1⟩
    · omega
    · have hsl : s.lastTail = some p := by
        rw [← midState_lastTail_of_noTick inp₁ s hm1]
        exact hlt1
      have hlast1 : s₁.segments.getLast? = some ((midState inp₁ s).nextId, p) := by
        rw [hs1, (food_spawner_fields _ _ _ _).1]
        exact List.getLast?_concat _
      have hs1lt : s₁.lastTail = some p := by
        rw [frameStep_lastTail inp₁ s s₁ h1, hm1, movementSystem_false,
          (inputSystem_fields _ _).2.1]
        exact hsl
      rcases frameStep_decomp inp₂ s₁ s₂ h2 with ⟨h0, _⟩ | ⟨_, q, hlt2, hs2⟩
      · omega
      · have hq : q = p := Option.some.inj (by
          rw [← hlt2, midState_lastTail_of_noTick inp₂ s₁ hm2, hs1lt])
        have hlast2 : s₂.segments.getLast? =
            some ((midState inp₂ s₁).nextId, p) := by
          rw [hs2, (food_spawner_fields _ _ _ _).1, hq]
          exact List.getLast?_concat _
        exact ⟨p, (midState inp₁ s).nextId, (midState inp₂ s₁).nextId,
          hsl, hlast1, hlast2⟩

/-- Closed instance of C10: two growth-consuming frames with no
movement tick in between (the second food is spawned by the first
frame's spawner tick at the head's cell) both append at the same
recorded tail cell (5,3). -/
theorem spec_C10_witness :
    ∃ (p : Position) (e₁ e₂ : Nat),
      ({ nextId := 3, segments := [(0, ⟨5, 5⟩), (1, ⟨5, 4⟩)], headDir := .Up,
         foods := [(2, ⟨5, 5⟩)],
         lastTail := some ⟨5, 3⟩ } : GameState).lastTail = some p ∧
      ({ nextId := 5, segments := [(0, ⟨5, 5⟩), (1, ⟨5, 4⟩), (3, ⟨5, 3⟩)],
         headDir := .Up, foods := [(4, ⟨5, 5⟩)],
         lastTail := some ⟨5, 3⟩ } : GameState).segments.getLast? =
        some (e₁, p) ∧
      ({ nextId := 6,
         segments := [(0, ⟨5, 5⟩), (1, ⟨5, 4⟩), (3, ⟨5, 3⟩), (5, ⟨5, 3⟩)],
         headDir := .Up, foods := [],
         lastTail := some ⟨5, 3⟩ } : GameState).segments.getLast? =
        some (e₂, p) := by
  apply spec_C10.2.2 _ ⟨⟨false, false, false, false⟩, false, true, 1 / 2, 1 / 2⟩
    ⟨⟨false, false, false, false⟩, false, false, 0, 0⟩ _ _ rfl rfl ?_ ?_
    (by decide) (by decide)
  · rw [frameStep_eq]
    have hpend : framePending
        ⟨⟨false, false, false, false⟩, false, true, 1 / 2, 1 / 2⟩
        { nextId := 3, segments := [(0, ⟨5, 5⟩), (1, ⟨5, 4⟩)], headDir := .Up,
          foods := [(2, ⟨5, 5⟩)], lastTail := some ⟨5, 3⟩ } = 1 := by decide
    rw [hpend, snake_growth_pos_some 1 _ ⟨5, 3⟩ (by norm_num) (by decide)]
    simp only [food_spawner, if_true, foodPosition_half]
    decide
  · decide

end Snake
